import Mathlib

/-!
Verification of the `loadgen` package (`generator.go`, `iterators.go`,
`replaygenerator.go`).

Modelling conventions:

* Durations are modelled as `Int` nanoseconds (Go's `time.Duration` is an
  `int64` nanosecond count).
* `Device.MessageRate` is a `float64` in the source; it is modelled as an
  exact rational `ℚ`.  All the floating-point operations the source applies
  to it (one division, `math.Floor`, conversions to integer types) are
  modelled by the corresponding exact operations, so every `Int.fdiv` below
  is the exact value of the source's float computation whenever that float
  computation is itself exact (which it is at every concrete input used in
  the theorems).
* Go `int`/`int64` arithmetic on the sequence counter wraps around; this is
  modelled explicitly by `int64wrap`.
* Errors are modelled by `GoError`, with `io.EOF` as a distinguished value.
-/

/-- Model of the Go error values the package distinguishes: `io.EOF`
(returned by the replay generator when exhausted) versus any other error. -/
inductive GoError where
  | eof : GoError
  | other (msg : String) : GoError
deriving DecidableEq

/-- A simulated device (`generator.go`, `type Device`).  The
`PayloadGenerator` field of the source struct is not carried here: the
orchestrator never calls it directly (only `Client.Publish` implementations
do), so publish outcomes are routed through the client model instead. -/
structure Device where
  ID : String
  MessageRate : ℚ
deriving DecidableEq

/-- Nanoseconds in one second: the value of Go's `time.Second`. -/
def nsPerSecond : Int := 1000000000

/-- Model of `time.Duration(float64(time.Second) / device.MessageRate)`
(generator.go).  The float division is modelled exactly; Go's float-to-int
conversion truncates toward zero, which for a positive quotient is the floor,
i.e. `(10^9 * rate.den).fdiv rate.num`.  The source only evaluates this under
a `MessageRate > 0` guard, so only that case is meaningful. -/
def intervalNs (rate : ℚ) : Int := Int.fdiv (nsPerSecond * (rate.den : Int)) rate.num

/-- Model of `int(math.Floor(float64(duration) / float64(interval)))`
(generator.go).  `math.Floor` of the exact quotient is floor division,
`Int.fdiv`; it is applied to possibly negative durations, where `fdiv`
(rounding toward negative infinity) matches `math.Floor`. -/
def numTicksFor (duration interval : Int) : Int := Int.fdiv duration interval

/-- Model of `LoadGenerator.ExpectedMessagesForDuration` (generator.go,
lines 41-58): fold over the device list; a device with positive rate and
positive rounded interval contributes `1 + numTicks`, a device with positive
rate whose interval rounded to zero contributes `1`, any other device
contributes nothing. -/
def ExpectedMessagesForDuration (devices : List Device) (duration : Int) : Int :=
  devices.foldl
    (fun totalExpected device =>
      if 0 < device.MessageRate then
        if 0 < intervalNs device.MessageRate then
          totalExpected + (1 + numTicksFor duration (intervalNs device.MessageRate))
        else
          totalExpected + 1
      else totalExpected)
    0

/-- The per-device count exactly as claim C1 words it: for `MessageRate > 0`
the device contributes `1 + floor(duration / interval)` with
`interval = 1s / MessageRate`, except that an interval that rounds to zero
contributes exactly `1`; a device with rate `≤ 0` contributes `0`. -/
def claimDeviceCount (duration : Int) (rate : ℚ) : Int :=
  if 0 < rate then
    if intervalNs rate = 0 then 1
    else 1 + numTicksFor duration (intervalNs rate)
  else 0

lemma intervalNs_nonneg {rate : ℚ} (h : 0 < rate) : 0 ≤ intervalNs rate := by
  have hnum : 0 < rate.num := Rat.num_pos.mpr h
  have hden : (0 : Int) < (rate.den : Int) := by exact_mod_cast rate.den_pos
  unfold intervalNs
  rw [Int.fdiv_eq_ediv _ (le_of_lt hnum)]
  exact Int.ediv_nonneg
    (Int.mul_nonneg (by norm_num [nsPerSecond]) (le_of_lt hden)) (le_of_lt hnum)

lemma expected_foldl_general (duration : Int) :
    ∀ (devices : List Device) (acc : Int),
      devices.foldl
        (fun totalExpected device =>
          if 0 < device.MessageRate then
            if 0 < intervalNs device.MessageRate then
              totalExpected + (1 + numTicksFor duration (intervalNs device.MessageRate))
            else
              totalExpected + 1
          else totalExpected)
        acc
      = acc + ((devices.map (fun d => claimDeviceCount duration d.MessageRate)).sum) := by
  intro devices
  induction devices with
  | nil => intro acc; simp
  | cons d ds ih =>
    intro acc
    simp only [List.foldl_cons, List.map_cons, List.sum_cons, ih]
    by_cases hrate : 0 < d.MessageRate
    · have hiv : 0 ≤ intervalNs d.MessageRate := intervalNs_nonneg hrate
      by_cases hpos : 0 < intervalNs d.MessageRate
      · have : intervalNs d.MessageRate ≠ 0 := by omega
        simp only [claimDeviceCount, if_pos hrate, if_pos hpos, if_neg this]
        ring
      · have : intervalNs d.MessageRate = 0 := by omega
        simp only [claimDeviceCount, if_pos hrate, if_neg hpos, if_pos this]
        ring
    · simp only [claimDeviceCount, if_neg hrate]
      ring

/-- C1: for every device list and duration, `ExpectedMessagesForDuration`
returns the sum over the devices of the claimed per-device count: devices
with `MessageRate > 0` contribute `1 + floor(duration / interval)` where
`interval = 1s / MessageRate` rounded to integer nanoseconds, a device whose
interval rounds to zero contributes exactly `1`, and devices with rate `≤ 0`
contribute `0`. -/
theorem expectedMessages_eq_sum_of_claim_counts
    (devices : List Device) (duration : Int) :
    ExpectedMessagesForDuration devices duration
      = ((devices.map (fun d => claimDeviceCount duration d.MessageRate)).sum) := by
  unfold ExpectedMessagesForDuration
  rw [expected_foldl_general duration devices 0]
  ring

/-- C2 counterexample: the claim asserts that a single 1 Hz device over a
duration of 2s − 1ns yields 3 messages; `ExpectedMessagesForDuration`
actually computes `1 + floor(1999999999 / 1000000000) = 2`. -/
theorem expected_twoSecMinusOneNs_ne_three :
    ExpectedMessagesForDuration [⟨"edge", mkRat 1 1⟩] 1999999999 = 2 ∧
    ExpectedMessagesForDuration [⟨"edge", mkRat 1 1⟩] 1999999999 ≠ 3 := by
  decide

/-- Observable calls the orchestrator makes on its `Client` capability.
`publishCall i a` is attempt number `a` (0-based) of the device at position
`i` of the device list. -/
inductive Event where
  | connectCall : Event
  | publishCall (deviceIdx attempt : Nat) : Event
  | disconnectCall : Event
deriving DecidableEq

/-- Recognizer for publish events. -/
def Event.isPublish : Event → Bool
  | .publishCall _ _ => true
  | _ => false

/-- Recognizer for disconnect events. -/
def Event.isDisconnect : Event → Bool
  | .disconnectCall => true
  | _ => false

/-- Model of the `Client` capability (interfaces.go): the outcome of
`Connect()` and, for each device position and attempt number, the
`(success, error)` pair returned by `Publish`.  Indexing outcomes by device
and attempt keeps the model deterministic while quantifying over every
possible pattern of per-attempt failures. -/
structure ClientModel where
  connectErr : Option GoError
  publishOutcome : Nat → Nat → Bool × Option GoError

/-- What a terminating `Run` call produces: the returned success count, the
returned error, and the sequence of client calls made.  Device tasks run
concurrently in the source, so the relative order of publish events across
devices is not observable; the model lists them device by device and only
interleaving-invariant facts (counts, absence of events, the final position
of `Disconnect`) are claimed. -/
structure RunResult where
  count : Nat
  err : Option GoError
  events : List Event
deriving DecidableEq

/-- Number of publish attempts `runDevice` (generator.go, lines 96-137)
issues for one device under ideal tick timing: none when the rate is not
positive (early return) or the run context is already done at task start
(`duration ≤ 0`); otherwise one attempt at t = 0 plus one per tick boundary
`k * interval ≤ duration`.  A tick boundary falling exactly on the deadline
is counted, which is the tie resolution the spec's closed form assumes; the
select statement itself does not guarantee it (see `selectStep`). -/
def deviceAttempts (rate : ℚ) (duration : Int) : Nat :=
  if rate ≤ 0 then 0
  else if duration ≤ 0 then 0
  else (1 + numTicksFor duration (intervalNs rate)).toNat

/-- The publish events one device task emits. -/
def devicePublishEvents (idx : Nat) (rate : ℚ) (duration : Int) : List Event :=
  (List.range (deviceAttempts rate duration)).map (Event.publishCall idx)

/-- How many of one device's attempts increment the shared counter: the
source increments exactly when `Publish` returned a nil error and
`success == true`. -/
def successCount (client : ClientModel) (idx : Nat) (rate : ℚ) (duration : Int) : Nat :=
  ((List.range (deviceAttempts rate duration)).filter
    (fun a => (client.publishOutcome idx a).1 && (client.publishOutcome idx a).2.isNone)).length

/-- Publish events of all devices, in device-list order. -/
def allPublishEvents (duration : Int) : Nat → List Device → List Event
  | _, [] => []
  | idx, d :: ds =>
      devicePublishEvents idx d.MessageRate duration
        ++ allPublishEvents duration (idx + 1) ds

/-- Final value of the shared atomic counter. -/
def totalSuccessCount (client : ClientModel) (duration : Int) : Nat → List Device → Nat
  | _, [] => 0
  | idx, d :: ds =>
      successCount client idx d.MessageRate duration
        + totalSuccessCount client duration (idx + 1) ds

/-- A started device task with positive rate whose rounded interval is not
positive hands that interval to `time.NewTicker`, whose behavior at a
non-positive period the spec declares undefined and dangerous (design note
on very high rates); in Go it does not return normally.  Such runs are
modelled as having no defined result. -/
def devicePanics (rate : ℚ) : Bool :=
  decide (0 < rate) && decide (intervalNs rate ≤ 0)

/-- Model of `LoadGenerator.Run` (generator.go, lines 61-87).  On connect
failure it returns `(0, err)` at once: no device task is started and the
deferred disconnect has not yet been registered.  Otherwise it spawns every
device task, joins them, and the deferred `Disconnect` runs last; `none`
models the undefined zero-interval-ticker case. -/
def runModel (devices : List Device) (duration : Int) (client : ClientModel) :
    Option RunResult :=
  match client.connectErr with
  | some e => some ⟨0, some e, [Event.connectCall]⟩
  | none =>
      if devices.any (fun d => devicePanics d.MessageRate) then none
      else
        some ⟨totalSuccessCount client duration 0 devices, none,
          Event.connectCall ::
            (allPublishEvents duration 0 devices ++ [Event.disconnectCall])⟩

/-- An all-success client: `Connect` succeeds and every publish attempt is
acknowledged. -/
def clientAllOk : ClientModel := ⟨none, fun _ _ => (true, none)⟩

lemma successCount_allOk (idx : Nat) (rate : ℚ) (duration : Int) :
    successCount clientAllOk idx rate duration = deviceAttempts rate duration := by
  simp [successCount, clientAllOk]

/-- C2 (amended): with all publishes succeeding and no cancellation, the
per-device attempt count of the scheduling loop and
`ExpectedMessagesForDuration` over that single device agree and take the
concrete values R=1Hz, D=1s ↦ 2; R=2Hz, D=0.5s ↦ 2; R=0.5Hz, D=2.1s ↦ 2;
R=1Hz, D=2s−1ns ↦ 2; R=1Hz, D=2s ↦ 3; R=1Hz, D=2s+1ns ↦ 3. -/
theorem expected_concrete_values :
    (∀ (idx : Nat) (rate : ℚ) (duration : Int),
        successCount clientAllOk idx rate duration = deviceAttempts rate duration) ∧
    (ExpectedMessagesForDuration [⟨"d", mkRat 1 1⟩] 1000000000 = 2 ∧
       deviceAttempts (mkRat 1 1) 1000000000 = 2) ∧
    (ExpectedMessagesForDuration [⟨"d", mkRat 2 1⟩] 500000000 = 2 ∧
       deviceAttempts (mkRat 2 1) 500000000 = 2) ∧
    (ExpectedMessagesForDuration [⟨"d", mkRat 1 2⟩] 2100000000 = 2 ∧
       deviceAttempts (mkRat 1 2) 2100000000 = 2) ∧
    (ExpectedMessagesForDuration [⟨"d", mkRat 1 1⟩] 1999999999 = 2 ∧
       deviceAttempts (mkRat 1 1) 1999999999 = 2) ∧
    (ExpectedMessagesForDuration [⟨"d", mkRat 1 1⟩] 2000000000 = 3 ∧
       deviceAttempts (mkRat 1 1) 2000000000 = 3) ∧
    (ExpectedMessagesForDuration [⟨"d", mkRat 1 1⟩] 2000000001 = 3 ∧
       deviceAttempts (mkRat 1 1) 2000000001 = 3) :=
  ⟨successCount_allOk, by decide, by decide, by decide, by decide, by decide, by decide⟩

/-- The two alternatives of the select statement in the subsequent-publish
loop of `runDevice` (generator.go, lines 123-137). -/
inductive SelectCase where
  | ctxDone : SelectCase
  | tick : SelectCase
deriving DecidableEq

/-- One evaluation of that select statement.  Go's select takes the unique
ready case when exactly one of `ctx.Done()` and `ticker.C` is ready, blocks
when neither is, and when both are ready picks one pseudo-randomly; the
`choice` argument resolves that nondeterminism. -/
def selectStep (doneReady tickReady : Bool) (choice : SelectCase) : Option SelectCase :=
  if doneReady && tickReady then some choice
  else if doneReady then some SelectCase.ctxDone
  else if tickReady then some SelectCase.tick
  else none

/-- C3 counterexample: when the tick and the context-done signal are ready
simultaneously, the select statement may take the done branch and stop, so
the loop does not always choose publishing over stopping. -/
theorem selectStep_tie_can_stop :
    selectStep true true SelectCase.ctxDone = some SelectCase.ctxDone ∧
    some SelectCase.ctxDone ≠ some SelectCase.tick := by
  decide

/-- C3 (amended): a tick observed while the context is not yet done is
always honored with a publish, and a done signal observed without a pending
tick always stops the loop; but when both become ready simultaneously the
select statement follows Go's pseudo-random pick, so either branch can be
taken and the tick is not guaranteed to be honored. -/
theorem selectStep_resolution (c : SelectCase) :
    selectStep false true c = some SelectCase.tick ∧
    selectStep true false c = some SelectCase.ctxDone ∧
    selectStep true true c = some c := by
  refine ⟨rfl, rfl, ?_⟩
  simp [selectStep]

lemma allPublishEvents_only_publish (duration : Int) :
    ∀ (idx : Nat) (devices : List Device) (e : Event),
      e ∈ allPublishEvents duration idx devices → e.isPublish = true := by
  intro idx devices
  induction devices generalizing idx with
  | nil => intro e he; simp [allPublishEvents] at he
  | cons d ds ih =>
    intro e he
    simp only [allPublishEvents, List.mem_append] at he
    rcases he with he | he
    · simp only [devicePublishEvents, List.mem_map] at he
      obtain ⟨a, _, rfl⟩ := he
      rfl
    · exact ih (idx + 1) e he

lemma allPublishEvents_no_disconnect (duration : Int) (idx : Nat)
    (devices : List Device) :
    (allPublishEvents duration idx devices).countP Event.isDisconnect = 0 := by
  refine List.countP_eq_zero.mpr ?_
  intro e he
  have := allPublishEvents_only_publish duration idx devices e he
  cases e <;> simp_all [Event.isPublish, Event.isDisconnect]

/-- C4: whenever `Client.Connect()` fails, `Run` returns count 0 together
with that exact error, no publish attempt is ever issued, and `Disconnect`
is never called (the deferred disconnect is registered only after a
successful connect). -/
theorem run_connect_failure (devices : List Device) (duration : Int)
    (client : ClientModel) (e : GoError)
    (h : client.connectErr = some e) :
    (runModel devices duration client).map RunResult.count = some 0 ∧
    (runModel devices duration client).map RunResult.err = some (some e) ∧
    (runModel devices duration client).map
      (fun r => r.events.countP Event.isPublish) = some 0 ∧
    (runModel devices duration client).map
      (fun r => r.events.countP Event.isDisconnect) = some 0 := by
  simp [runModel, h, Event.isPublish, Event.isDisconnect]

/-- The error value used in the C4 witness. -/
def connFailErr : GoError := GoError.other ("connection failed")

/-- A concrete client whose connect fails, for the C4 witness. -/
def clientConnFail : ClientModel :=
  ⟨some connFailErr, fun _ _ => (false, none)⟩

/-- Witness for C4 at a concrete input. -/
theorem run_connect_failure_witness :
    clientConnFail.connectErr = some connFailErr ∧
    ((runModel [⟨"w4", mkRat 1 1⟩] 1000000000 clientConnFail).map
        RunResult.count = some 0 ∧
     (runModel [⟨"w4", mkRat 1 1⟩] 1000000000 clientConnFail).map
        RunResult.err = some (some connFailErr) ∧
     (runModel [⟨"w4", mkRat 1 1⟩] 1000000000 clientConnFail).map
        (fun r => r.events.countP Event.isPublish) = some 0 ∧
     (runModel [⟨"w4", mkRat 1 1⟩] 1000000000 clientConnFail).map
        (fun r => r.events.countP Event.isDisconnect) = some 0) :=
  ⟨rfl, run_connect_failure [⟨"w4", mkRat 1 1⟩] 1000000000 clientConnFail
    connFailErr rfl⟩

/-- C5: whenever `Connect` succeeds and `Run` returns, it returns a nil
error (connect failure is the only non-nil-error return), the returned count
is the accumulated success count, and `Disconnect` was called exactly once,
as the last client call before returning, regardless of the pattern of
per-attempt publish failures. -/
theorem run_disconnect_once (devices : List Device) (duration : Int)
    (client : ClientModel) (r : RunResult)
    (h : client.connectErr = none)
    (hr : runModel devices duration client = some r) :
    r.err = none ∧
    r.count = totalSuccessCount client duration 0 devices ∧
    r.events.countP Event.isDisconnect = 1 ∧
    r.events.getLast? = some Event.disconnectCall := by
  unfold runModel at hr
  rw [h] at hr
  by_cases hp : devices.any (fun d => devicePanics d.MessageRate)
  · rw [if_pos hp] at hr
    cases hr
  · rw [if_neg hp] at hr
    cases hr
    refine ⟨rfl, rfl, ?_, ?_⟩
    · simp [List.countP_cons, List.countP_append,
        allPublishEvents_no_disconnect, Event.isDisconnect]
    · show ((Event.connectCall :: allPublishEvents duration 0 devices)
          ++ [Event.disconnectCall]).getLast? = some Event.disconnectCall
      exact List.getLast?_concat _

/-- Witness for C5 at a concrete input: one 1 Hz device, duration 1 ns,
all-success client. -/
theorem run_disconnect_once_witness :
    clientAllOk.connectErr = none ∧
    runModel [⟨"w5", mkRat 1 1⟩] 1 clientAllOk
      = some ⟨1, none,
          [Event.connectCall, Event.publishCall 0 0, Event.disconnectCall]⟩ ∧
    ((⟨1, none,
        [Event.connectCall, Event.publishCall 0 0, Event.disconnectCall]⟩ :
          RunResult).err = none ∧
     (⟨1, none,
        [Event.connectCall, Event.publishCall 0 0, Event.disconnectCall]⟩ :
          RunResult).count
        = totalSuccessCount clientAllOk 1 0 [⟨"w5", mkRat 1 1⟩] ∧
     (⟨1, none,
        [Event.connectCall, Event.publishCall 0 0, Event.disconnectCall]⟩ :
          RunResult).events.countP Event.isDisconnect = 1 ∧
     (⟨1, none,
        [Event.connectCall, Event.publishCall 0 0, Event.disconnectCall]⟩ :
          RunResult).events.getLast? = some Event.disconnectCall) :=
  ⟨rfl, by decide,
    run_disconnect_once [⟨"w5", mkRat 1 1⟩] 1 clientAllOk _ rfl (by decide)⟩

lemma deviceAttempts_of_nonpos {duration : Int} (hd : duration ≤ 0)
    (rate : ℚ) : deviceAttempts rate duration = 0 := by
  unfold deviceAttempts
  by_cases hr : rate ≤ 0
  · rw [if_pos hr]
  · rw [if_neg hr, if_pos hd]

lemma allPublishEvents_of_nonpos {duration : Int} (hd : duration ≤ 0) :
    ∀ (idx : Nat) (devices : List Device),
      allPublishEvents duration idx devices = [] := by
  intro idx devices
  induction devices generalizing idx with
  | nil => rfl
  | cons d ds ih =>
    simp [allPublishEvents, devicePublishEvents,
      deviceAttempts_of_nonpos hd, ih]

lemma totalSuccessCount_of_nonpos {duration : Int} (hd : duration ≤ 0)
    (client : ClientModel) :
    ∀ (idx : Nat) (devices : List Device),
      totalSuccessCount client duration idx devices = 0 := by
  intro idx devices
  induction devices generalizing idx with
  | nil => rfl
  | cons d ds ih =>
    simp [totalSuccessCount, successCount,
      deviceAttempts_of_nonpos hd, ih]

/-- C6: for every duration ≤ 0, when `Connect` succeeds and `Run` returns,
it returns count 0 with a nil error, and no publish attempt at all is issued
(every device task sees the already-expired run context before its t = 0
publish). -/
theorem run_nonpositive_duration (devices : List Device) (duration : Int)
    (client : ClientModel) (r : RunResult)
    (hd : duration ≤ 0)
    (h : client.connectErr = none)
    (hr : runModel devices duration client = some r) :
    r.count = 0 ∧ r.err = none ∧ r.events.countP Event.isPublish = 0 := by
  unfold runModel at hr
  rw [h] at hr
  by_cases hp : devices.any (fun d => devicePanics d.MessageRate)
  · rw [if_pos hp] at hr
    cases hr
  · rw [if_neg hp] at hr
    cases hr
    refine ⟨totalSuccessCount_of_nonpos hd client 0 devices, rfl, ?_⟩
    simp [allPublishEvents_of_nonpos hd, List.countP_cons, Event.isPublish]

/-- Witness for C6 at a concrete input: duration −5 ns. -/
theorem run_nonpositive_duration_witness :
    (-5 : Int) ≤ 0 ∧
    clientAllOk.connectErr = none ∧
    runModel [⟨"w6", mkRat 1 1⟩] (-5) clientAllOk
      = some ⟨0, none, [Event.connectCall, Event.disconnectCall]⟩ ∧
    ((⟨0, none, [Event.connectCall, Event.disconnectCall]⟩ : RunResult).count = 0 ∧
     (⟨0, none, [Event.connectCall, Event.disconnectCall]⟩ : RunResult).err = none ∧
     (⟨0, none, [Event.connectCall, Event.disconnectCall]⟩ :
        RunResult).events.countP Event.isPublish = 0) :=
  ⟨by decide, rfl, by decide,
    run_nonpositive_duration [⟨"w6", mkRat 1 1⟩] (-5) clientAllOk _
      (by decide) rfl (by decide)⟩

/-- C9: a device whose `MessageRate` is not positive makes its task exit on
the guard at the top of `runDevice`: it issues no publish attempt, emits no
publish event, and contributes zero successes, for every duration and every
client behavior. -/
theorem device_nonpositive_rate_silent (rate : ℚ) (duration : Int)
    (idx : Nat) (client : ClientModel)
    (h : rate ≤ 0) :
    deviceAttempts rate duration = 0 ∧
    devicePublishEvents idx rate duration = [] ∧
    successCount client idx rate duration = 0 := by
  have ha : deviceAttempts rate duration = 0 := by
    unfold deviceAttempts
    rw [if_pos h]
  refine ⟨ha, ?_, ?_⟩
  · simp [devicePublishEvents, ha]
  · simp [successCount, ha]

/-- Witness for C9 at a concrete input: rate 0. -/
theorem device_nonpositive_rate_silent_witness :
    (mkRat 0 1 : ℚ) ≤ 0 ∧
    (deviceAttempts (mkRat 0 1) 7 = 0 ∧
     devicePublishEvents 0 (mkRat 0 1) 7 = [] ∧
     successCount clientAllOk 0 (mkRat 0 1) 7 = 0) :=
  ⟨by decide, device_nonpositive_rate_silent (mkRat 0 1) 7 0 clientAllOk (by decide)⟩

/-- Model of `ReplayPayloadGenerator` (replaygenerator.go): the fixed list
of raw payloads (byte strings modelled as lists of byte values) and the
cursor index.  The mutex only serializes calls; the sequential call order
the claim speaks about is the order modelled here. -/
structure ReplayPayloadGenerator where
  messages : List (List Nat)
  index : Nat
deriving DecidableEq

/-- Model of `NewReplayPayloadGenerator`: cursor starts at zero. -/
def NewReplayPayloadGenerator (messages : List (List Nat)) : ReplayPayloadGenerator :=
  ⟨messages, 0⟩

/-- Model of `GeneratePayload` (replaygenerator.go, lines 29-40): if the
cursor is past the end, return `io.EOF` and leave the state unchanged;
otherwise return the payload at the cursor and advance the cursor by one. -/
def ReplayPayloadGenerator.GeneratePayload (r : ReplayPayloadGenerator) :
    (Option (List Nat) × Option GoError) × ReplayPayloadGenerator :=
  if r.messages.length ≤ r.index then ((none, some GoError.eof), r)
  else ((r.messages.get? r.index, none), ⟨r.messages, r.index + 1⟩)

/-- The results and final state of `n` sequential `GeneratePayload` calls. -/
def replayRun (r : ReplayPayloadGenerator) :
    Nat → List (Option (List Nat) × Option GoError) × ReplayPayloadGenerator
  | 0 => ([], r)
  | n + 1 =>
      let step := r.GeneratePayload
      let rest := replayRun step.2 n
      (step.1 :: rest.1, rest.2)

lemma replayRun_from (msgs : List (List Nat)) :
    ∀ (n j : Nat), j ≤ msgs.length →
      (replayRun ⟨msgs, j⟩ n).1
        = (List.range n).map
            (fun i : Nat => (msgs.get? (j + i),
              if j + i < msgs.length then none else some GoError.eof)) ∧
      (replayRun ⟨msgs, j⟩ n).2 = ⟨msgs, min (j + n) msgs.length⟩ := by
  intro n
  induction n with
  | zero =>
    intro j hj
    refine ⟨by simp [replayRun], ?_⟩
    simp only [replayRun]
    congr 1
    omega
  | succ n ih =>
    intro j hj
    by_cases hend : msgs.length ≤ j
    · have hstep : (⟨msgs, j⟩ : ReplayPayloadGenerator).GeneratePayload
          = ((none, some GoError.eof), ⟨msgs, j⟩) := by
        simp [ReplayPayloadGenerator.GeneratePayload, hend]
      obtain ⟨ih1, ih2⟩ := ih j hj
      constructor
      · simp only [replayRun, hstep, ih1, List.range_succ_eq_map,
          List.map_cons, List.map_map]
        congr 1
        · have hg : msgs.get? (j + 0) = none := List.get?_eq_none.mpr (by omega)
          rw [hg, if_neg (by omega : ¬ (j + 0 < msgs.length))]
        · refine List.map_congr_left ?_
          intro i hi
          simp only [Function.comp_apply, Nat.succ_eq_add_one]
          have hgA : msgs.get? (j + i) = none := List.get?_eq_none.mpr (by omega)
          have hgB : msgs.get? (j + (i + 1)) = none := List.get?_eq_none.mpr (by omega)
          rw [hgA, hgB, if_neg (by omega : ¬ (j + i < msgs.length)),
            if_neg (by omega : ¬ (j + (i + 1) < msgs.length))]
      · simp only [replayRun, hstep, ih2]
        congr 1
        omega
    · have hstep : (⟨msgs, j⟩ : ReplayPayloadGenerator).GeneratePayload
          = ((msgs.get? j, none), ⟨msgs, j + 1⟩) := by
        simp [ReplayPayloadGenerator.GeneratePayload, hend]
      obtain ⟨ih1, ih2⟩ := ih (j + 1) (by omega)
      constructor
      · simp only [replayRun, hstep, ih1, List.range_succ_eq_map,
          List.map_cons, List.map_map]
        congr 1
        · rw [if_pos (by omega : j + 0 < msgs.length), Nat.add_zero]
        · refine List.map_congr_left ?_
          intro i hi
          simp only [Function.comp_apply, Nat.succ_eq_add_one]
          have hidx : j + 1 + i = j + (i + 1) := by omega
          rw [hidx]
      · simp only [replayRun, hstep, ih2]
        congr 1
        omega

/-- C7: over K payloads, the i-th sequential `GeneratePayload` call
(0-based `i`, any number `n` of calls) returns the i-th payload with a nil
error while `i < K`, and `(nil, io.EOF)` for every call from the K-th on;
the cursor ends at `min n K`, so exhausted calls do not advance it. -/
theorem replay_returns_in_order (msgs : List (List Nat)) (n : Nat) :
    (replayRun (NewReplayPayloadGenerator msgs) n).1
      = (List.range n).map
          (fun i : Nat => (msgs.get? i,
            if i < msgs.length then none else some GoError.eof)) ∧
    (replayRun (NewReplayPayloadGenerator msgs) n).2
      = ⟨msgs, min n msgs.length⟩ := by
  obtain ⟨h1, h2⟩ := replayRun_from msgs n 0 (Nat.zero_le _)
  constructor
  · rw [show NewReplayPayloadGenerator msgs = ⟨msgs, 0⟩ from rfl, h1]
    refine List.map_congr_left ?_
    intro i hi
    rw [Nat.zero_add]
  · rw [show NewReplayPayloadGenerator msgs = ⟨msgs, 0⟩ from rfl, h2]
    congr 1
    omega

/-- Wrap an unbounded integer to the signed 64-bit value that Go's `int64`
arithmetic produces. -/
def int64wrap (x : Int) : Int := (x + 2 ^ 63) % 2 ^ 64 - 2 ^ 63

/-- Model of `Sequence` (iterators.go): a single `int64` value. -/
structure Sequence where
  val : Int
deriving DecidableEq

/-- Model of `NewSequence`: the stored value starts at `startValue - 1`
(with `int64` wraparound) so that the first `Next` returns `startValue`. -/
def NewSequence (startValue : Int) : Sequence := ⟨int64wrap (startValue - 1)⟩

/-- Model of `Sequence.Next` (iterators.go, lines 14-23):
`atomic.AddInt64(&s.val, 1)` increments with `int64` wraparound and returns
the new value. -/
def Sequence.Next (s : Sequence) : Int × Sequence :=
  (int64wrap (s.val + 1), ⟨int64wrap (s.val + 1)⟩)

/-- The values returned by `n` sequential `Next` calls. -/
def seqOutputs (s : Sequence) : Nat → List Int
  | 0 => []
  | n + 1 => (s.Next).1 :: seqOutputs (s.Next).2 n

lemma int64wrap_add (x y : Int) :
    int64wrap (int64wrap x + y) = int64wrap (x + y) := by
  unfold int64wrap
  omega

lemma int64wrap_id {x : Int} (h1 : -(2 ^ 63) ≤ x) (h2 : x < 2 ^ 63) :
    int64wrap x = x := by
  unfold int64wrap
  omega

lemma seqOutputs_wrap (n : Nat) :
    ∀ x : Int, seqOutputs ⟨int64wrap x⟩ n
      = (List.range n).map (fun i : Nat => int64wrap (x + 1 + (i : Int))) := by
  induction n with
  | zero => intro x; simp [seqOutputs]
  | succ n ih =>
    intro x
    have hnext : (⟨int64wrap x⟩ : Sequence).Next
        = (int64wrap (x + 1), ⟨int64wrap (x + 1)⟩) := by
      simp only [Sequence.Next, int64wrap_add]
    simp only [seqOutputs, hnext, ih (x + 1), List.range_succ_eq_map,
      List.map_cons, List.map_map]
    congr 1
    · norm_num
    · refine List.map_congr_left ?_
      intro i hi
      simp only [Function.comp_apply, Nat.succ_eq_add_one]
      congr 1
      push_cast
      ring

/-- C8 counterexample: a `Sequence` started at the largest `int64` value
returns that value first, but the second `Next` wraps around to the smallest
`int64` value instead of start + 1. -/
theorem sequence_wraps_at_max_int64 :
    seqOutputs (NewSequence (2 ^ 63 - 1)) 2 = [2 ^ 63 - 1, -(2 ^ 63)] ∧
    (-(2 ^ 63) : Int) ≠ (2 ^ 63 - 1) + 1 := by
  decide

/-- C8 (amended): for a `Sequence` created with start value S, n sequential
`Next` calls return S, S+1, …, S+n−1 in order provided every returned value
fits in `int64`, i.e. S ≥ −2^63 and S+n−1 ≤ 2^63−1; in particular the first
call returns exactly S for every `int64` start value.  Past the `int64`
maximum the returned values wrap around (see the counterexample). -/
theorem sequence_yields_consecutive (S : Int) (n : Nat)
    (hlo : -(2 ^ 63) ≤ S) (hhi : S + n ≤ 2 ^ 63) :
    seqOutputs (NewSequence S) n
      = (List.range n).map (fun i : Nat => S + (i : Int)) := by
  unfold NewSequence
  rw [seqOutputs_wrap n (S - 1)]
  refine List.map_congr_left ?_
  intro i hi
  have hi' : i < n := List.mem_range.mp hi
  have hic : (i : Int) < (n : Int) := by exact_mod_cast hi'
  have h1 : S - 1 + 1 + (i : Int) = S + (i : Int) := by ring
  rw [h1]
  have hge : (0 : Int) ≤ (i : Int) := Int.natCast_nonneg i
  exact int64wrap_id (by omega) (by omega)

/-- Witness for C8 at a concrete input: start 5, three calls. -/
theorem sequence_yields_consecutive_witness :
    -(2 ^ 63) ≤ (5 : Int) ∧ (5 : Int) + ((3 : Nat) : Int) ≤ 2 ^ 63 ∧
    seqOutputs (NewSequence 5) 3 = [5, 6, 7] :=
  ⟨by decide, by decide,
    (sequence_yields_consecutive 5 3 (by decide) (by decide)).trans (by decide)⟩

lemma numTicksFor_le_neg_one {D i : Int} (hi : 0 < i) (h : D ≤ -i) :
    numTicksFor D i ≤ -1 := by
  unfold numTicksFor
  rw [Int.fdiv_eq_ediv _ (le_of_lt hi)]
  have h1 : D / i ≤ (-i) / i := Int.ediv_le_ediv hi h
  have h2 : (-i) / i = -1 := by
    have hni : -i = i * (-1) := by ring
    rw [hni, Int.mul_ediv_cancel_left _ (by omega)]
  omega

/-- C10: `ExpectedMessagesForDuration` applies `1 + floor(duration /
interval)` to negative durations without clamping at zero: a single device
with positive rate and positive interval contributes exactly that value for
every duration, the contribution is `≤ 0` as soon as `duration ≤ -interval`,
and concretely a single 1 Hz device over -2 s yields the negative total -1
while the run itself (which treats the expired context as an immediate stop)
publishes 0 messages — the two disagree on negative durations. -/
theorem expected_no_clamp_negative :
    (∀ (s : String) (rate : ℚ) (D : Int),
        0 < rate → 0 < intervalNs rate →
        ExpectedMessagesForDuration [⟨s, rate⟩] D
          = 1 + numTicksFor D (intervalNs rate)) ∧
    (∀ (s : String) (rate : ℚ) (D : Int),
        0 < rate → 0 < intervalNs rate → D ≤ -(intervalNs rate) →
        ExpectedMessagesForDuration [⟨s, rate⟩] D ≤ 0) ∧
    (ExpectedMessagesForDuration [⟨"neg", mkRat 1 1⟩] (-2000000000) = -1 ∧
     (runModel [⟨"neg", mkRat 1 1⟩] (-2000000000) clientAllOk).map RunResult.count
       = some 0) := by
  have hsingle : ∀ (s : String) (rate : ℚ) (D : Int),
      0 < rate → 0 < intervalNs rate →
      ExpectedMessagesForDuration [⟨s, rate⟩] D
        = 1 + numTicksFor D (intervalNs rate) := by
    intro s rate D hr hi
    simp only [ExpectedMessagesForDuration, List.foldl_cons, List.foldl_nil,
      if_pos hr, if_pos hi]
    ring
  refine ⟨hsingle, ?_, by decide, by decide⟩
  intro s rate D hr hi hD
  rw [hsingle s rate D hr hi]
  have := numTicksFor_le_neg_one hi hD
  omega

/-- Witness for C10 at a concrete input: rate 1 Hz, duration -3 s. -/
theorem expected_no_clamp_negative_witness :
    (0 : ℚ) < mkRat 1 1 ∧ (0 : Int) < intervalNs (mkRat 1 1) ∧
    (-3000000000 : Int) ≤ -(intervalNs (mkRat 1 1)) ∧
    ExpectedMessagesForDuration [⟨"w10", mkRat 1 1⟩] (-3000000000) ≤ 0 :=
  ⟨by decide, by decide, by decide,
    expected_no_clamp_negative.2.1 "w10" (mkRat 1 1) (-3000000000)
      (by decide) (by decide) (by decide)⟩
